import Mathlib

/-!
Verification of the nest-crud-mixins dynamic query-construction and CRUD layer.

The definitions below are a shallow embedding of the TypeScript sources:
* src/utils/query-builder-service.ts  (QueryBuilderService)
* src/core/mixins-crud-service.ts     (MixinsCrudService)
* src/core/mixins-crud-controller.ts  (MixinsCrudController)
* the FilterOptionsBuilder and the filter-options interfaces
* src/exceptions/dto-validation.exception.ts (DTOValidationException)

The TypeORM SelectQueryBuilder collaborator is modelled as a call trace: every
builder method call made by the TypeScript code appends one event recording
exactly the arguments of that call (condition strings built by the same string
concatenation, bound parameters as name/value pairs).  JavaScript truthiness
tests that guard each clause are translated case by case (undefined and the
empty string and 0 are falsy; every object, including the Object constructor,
is truthy).
-/

namespace NestCrud

/-- A JSON-ish runtime value, standing for the untyped values that flow through
the TypeScript code (filter values, payload fields, bound parameters). -/
inductive Value where
  | str (s : String)
  | num (n : Int)
  | boolean (b : Bool)
  | null
deriving DecidableEq

/-- An inbound payload or a record body: an ordered list of named fields, as a
JavaScript object literal presents them. -/
abbrev Payload := List (String × Value)

/-- Association lookup on a list of named entries: the first entry with the
given key, matching the property-access semantics of a JavaScript object whose
earlier key wins. -/
def assoc {α : Type} (l : List (String × α)) (k : String) : Option α :=
  match l with
  | [] => none
  | (k', v) :: rest => if k' = k then some v else assoc rest k

/-! ## Filter Specification data model (core/interfaces/filter-options.ts) -/

/-- OrderByOptions: a field and an optional direction, ASC or DESC. -/
structure OrderByOptions where
  field : String
  order : Option String
deriving DecidableEq

/-- PaginationOptions: optional limit and offset. -/
structure PaginationOptions where
  limit : Option Nat
  offset : Option Nat
deriving DecidableEq

/-- SearchOptions: optional search fields and optional text value. -/
structure SearchOptions where
  searchFields : Option (List String)
  value : Option String
deriving DecidableEq

/-- DateFilterOptions: a required field plus optional bounds.  The TypeScript
names of the bounds are from and to; they are renamed here because from is a
reserved word in Lean. -/
structure DateFilterOptions where
  field : String
  fromVal : Option String
  toVal : Option String
deriving DecidableEq

/-- NullableFilterOptions: a field plus the IS NULL / IS NOT NULL flag. -/
structure NullableFilterOptions where
  field : String
  isNull : Bool
deriving DecidableEq

/-- The optional HAVING part of GroupByFilterOptions: condition text plus a
numeric threshold value. -/
structure GroupByHaving where
  condition : String
  value : Int
deriving DecidableEq

/-- GroupByFilterOptions: a field plus an optional HAVING clause. -/
structure GroupByFilterOptions where
  field : String
  having : Option GroupByHaving
deriving DecidableEq

/-- FilterOptions: the declarative Filter Specification; every clause is
independently optional. -/
structure FilterOptions where
  orderBy : Option (List OrderByOptions)
  filters : Option (List (String × Value))
  selectFields : Option (List String)
  pagination : Option PaginationOptions
  search : Option SearchOptions
  date : Option DateFilterOptions
  includeDeleted : Option Bool
  isNull : Option NullableFilterOptions
  groupBy : Option GroupByFilterOptions
deriving DecidableEq

/-- A FilterOptions value with every clause absent. -/
def emptyFilterOptions : FilterOptions :=
  { orderBy := none, filters := none, selectFields := none, pagination := none,
    search := none, date := none, includeDeleted := none, isNull := none,
    groupBy := none }

/-! ## Query-builder call trace (the SelectQueryBuilder collaborator) -/

/-- One call made on the TypeORM SelectQueryBuilder handle.  Condition strings
and parameter bindings are recorded verbatim as the TypeScript code builds
them. -/
inductive QEvent where
  | leftJoinAndSelect (path : String) (aliasName : String)
  | andWhere (cond : String) (params : List (String × Value))
  | orWhere (cond : String) (params : List (String × Value))
  | addOrderBy (field : String) (dir : String)
  | addSelect (sel : String)
  | limitEv (n : Nat)
  | offsetEv (n : Nat)
  | withDeleted
  | groupByEv (expr : String)
  | havingEv (cond : String) (params : List (String × Value))
  | getMany
deriving DecidableEq

/-- The JavaScript test string.includes with a dot argument, computed on the
character list of the string. -/
def hasDot (s : String) : Bool := s.data.contains '.'

namespace QueryBuilderService

/-- applyFilters (query-builder-service.ts): for each key of the filters object
call andWhere with the condition entity.key = :key and the single bound
parameter key -> value.  An absent filters object is a no-op; an empty object
iterates over nothing. -/
def applyFilters (qb : List QEvent) (filters : Option (List (String × Value))) :
    List QEvent :=
  match filters with
  | none => qb
  | some fs =>
    fs.foldl
      (fun acc kv =>
        acc ++ [QEvent.andWhere ("entity." ++ kv.1 ++ " = :" ++ kv.1) [kv]])
      qb

/-- applyOrderBy (query-builder-service.ts): no-op when absent or empty; else
one addOrderBy per entry, field prefixed with the root alias, direction
defaulting to ASC. -/
def applyOrderBy (qb : List QEvent) (orderBy : Option (List OrderByOptions)) :
    List QEvent :=
  match orderBy with
  | none => qb
  | some [] => qb
  | some os =>
    os.foldl
      (fun acc o =>
        acc ++ [QEvent.addOrderBy ("entity." ++ o.field) (o.order.getD "ASC")])
      qb

/-- applySelectFields (query-builder-service.ts): no-op when absent or empty;
else for every declared relation addSelect relation.id and relation.bio, then
for every requested field (deduplicated through a Set, first occurrence kept)
addSelect the field, root-prefixed unless it already contains a dot. -/
def applySelectFields (qb : List QEvent) (selectFields : Option (List String))
    (relations : Option (List String)) : List QEvent :=
  match selectFields with
  | none => qb
  | some [] => qb
  | some fs =>
    let qb1 :=
      (relations.getD []).foldl
        (fun acc rel =>
          acc ++ [QEvent.addSelect (rel ++ ".id"), QEvent.addSelect (rel ++ ".bio")])
        qb
    (fs.eraseDups).foldl
      (fun acc f =>
        acc ++ [QEvent.addSelect (if hasDot f then f else "entity." ++ f)])
      qb1

/-- applyPagination (query-builder-service.ts): no-op when pagination is absent
or its limit is falsy (absent or 0); else set limit and offset, offset
defaulting to 0. -/
def applyPagination (qb : List QEvent) (pagination : Option PaginationOptions) :
    List QEvent :=
  match pagination with
  | none => qb
  | some p =>
    match p.limit with
    | none => qb
    | some 0 => qb
    | some n => qb ++ [QEvent.limitEv n, QEvent.offsetEv (p.offset.getD 0)]

/-- applySearch (query-builder-service.ts): no-op unless both a truthy value
and a non-empty field list are given; else for each field (with its index) call
orWhere with the condition string built by the template
(index 0 gives an empty first piece, later indexes the literal OR) and the
bound parameter search -> percent-wrapped value. -/
def applySearch (qb : List QEvent) (search : Option SearchOptions) : List QEvent :=
  match search with
  | none => qb
  | some s =>
    match s.value with
    | none => qb
    | some v =>
      if v = "" then qb
      else
        match s.searchFields with
        | none => qb
        | some [] => qb
        | some fs =>
          (fs.enum).foldl
            (fun acc p =>
              acc ++ [QEvent.orWhere
                ((if p.1 = 0 then "" else "OR") ++ " entity." ++ p.2 ++ " LIKE :search")
                [("search", Value.str ("%" ++ v ++ "%"))]])
            qb

/-- applyDateFilter (query-builder-service.ts): no-op unless field, from and to
are all truthy; else one andWhere with a BETWEEN condition and the two bound
parameters. -/
def applyDateFilter (qb : List QEvent) (date : Option DateFilterOptions) :
    List QEvent :=
  match date with
  | none => qb
  | some d =>
    if d.field = "" then qb
    else
      match d.fromVal with
      | none => qb
      | some f =>
        if f = "" then qb
        else
          match d.toVal with
          | none => qb
          | some t =>
            if t = "" then qb
            else
              qb ++ [QEvent.andWhere ("entity." ++ d.field ++ " BETWEEN :from AND :to")
                [("from", Value.str f), ("to", Value.str t)]]

/-- applyIncludeDeleted (query-builder-service.ts): call withDeleted exactly
when the flag is truthy. -/
def applyIncludeDeleted (qb : List QEvent) (includeDeleted : Option Bool) :
    List QEvent :=
  if includeDeleted = some true then qb ++ [QEvent.withDeleted] else qb

/-- applyIsNull (query-builder-service.ts): no-op unless a truthy field is
given; else one andWhere with an IS NULL or IS NOT NULL condition and no bound
parameter. -/
def applyIsNull (qb : List QEvent) (isNull : Option NullableFilterOptions) :
    List QEvent :=
  match isNull with
  | none => qb
  | some o =>
    if o.field = "" then qb
    else
      qb ++ [QEvent.andWhere
        ("entity." ++ o.field ++ " IS " ++ (if o.isNull then "NULL" else "NOT NULL")) []]

/-- applyGroupBy (query-builder-service.ts): no-op unless a truthy field is
given; else groupBy on the root-prefixed field, then, when a having clause is
given, having with the condition text followed by the :value marker and the
bound threshold. -/
def applyGroupBy (qb : List QEvent) (groupBy : Option GroupByFilterOptions) :
    List QEvent :=
  match groupBy with
  | none => qb
  | some g =>
    if g.field = "" then qb
    else
      let qb1 := qb ++ [QEvent.groupByEv ("entity." ++ g.field)]
      match g.having with
      | none => qb1
      | some h =>
        qb1 ++ [QEvent.havingEv (h.condition ++ " :value") [("value", Value.num h.value)]]

/-! ### Per-clause trace contributions

Each of the following functions gives the list of events the corresponding
apply method appends; they are used to state the fixed-order decomposition of
findAllEntities. -/

/-- Events appended by applyFilters. -/
def filtersTrace : Option (List (String × Value)) → List QEvent
  | none => []
  | some fs => fs.map (fun kv => QEvent.andWhere ("entity." ++ kv.1 ++ " = :" ++ kv.1) [kv])

/-- Events appended by applyOrderBy. -/
def orderByTrace : Option (List OrderByOptions) → List QEvent
  | none => []
  | some os => os.map (fun o => QEvent.addOrderBy ("entity." ++ o.field) (o.order.getD "ASC"))

/-- Events appended by applySelectFields. -/
def selectFieldsTrace (selectFields : Option (List String))
    (relations : Option (List String)) : List QEvent :=
  match selectFields with
  | none => []
  | some [] => []
  | some fs =>
    (relations.getD []).flatMap
        (fun rel => [QEvent.addSelect (rel ++ ".id"), QEvent.addSelect (rel ++ ".bio")])
      ++ (fs.eraseDups).map
        (fun f => QEvent.addSelect (if hasDot f then f else "entity." ++ f))

/-- Events appended by applyPagination. -/
def paginationTrace : Option PaginationOptions → List QEvent
  | none => []
  | some p =>
    match p.limit with
    | none => []
    | some 0 => []
    | some n => [QEvent.limitEv n, QEvent.offsetEv (p.offset.getD 0)]

/-- Events appended by applySearch. -/
def searchTrace : Option SearchOptions → List QEvent
  | none => []
  | some s =>
    match s.value with
    | none => []
    | some v =>
      if v = "" then []
      else
        match s.searchFields with
        | none => []
        | some [] => []
        | some fs =>
          (fs.enum).map
            (fun p => QEvent.orWhere
              ((if p.1 = 0 then "" else "OR") ++ " entity." ++ p.2 ++ " LIKE :search")
              [("search", Value.str ("%" ++ v ++ "%"))])

/-- Events appended by applyDateFilter. -/
def dateFilterTrace : Option DateFilterOptions → List QEvent
  | none => []
  | some d =>
    if d.field = "" then []
    else
      match d.fromVal with
      | none => []
      | some f =>
        if f = "" then []
        else
          match d.toVal with
          | none => []
          | some t =>
            if t = "" then []
            else
              [QEvent.andWhere ("entity." ++ d.field ++ " BETWEEN :from AND :to")
                [("from", Value.str f), ("to", Value.str t)]]

/-- Events appended by applyIncludeDeleted. -/
def includeDeletedTrace (includeDeleted : Option Bool) : List QEvent :=
  if includeDeleted = some true then [QEvent.withDeleted] else []

/-- Events appended by applyIsNull. -/
def isNullTrace : Option NullableFilterOptions → List QEvent
  | none => []
  | some o =>
    if o.field = "" then []
    else
      [QEvent.andWhere
        ("entity." ++ o.field ++ " IS " ++ (if o.isNull then "NULL" else "NOT NULL")) []]

/-- Events appended by applyGroupBy. -/
def groupByTrace : Option GroupByFilterOptions → List QEvent
  | none => []
  | some g =>
    if g.field = "" then []
    else
      QEvent.groupByEv ("entity." ++ g.field) ::
        (match g.having with
         | none => []
         | some h => [QEvent.havingEv (h.condition ++ " :value") [("value", Value.num h.value)]])

/-! ### Folding helpers -/

/-- A forEach loop whose body appends a block of events per item appends the
concatenation of the blocks. -/
theorem foldl_append_flat {α β : Type} (f : α → List β) :
    ∀ (l : List α) (init : List β),
      l.foldl (fun acc x => acc ++ f x) init = init ++ l.flatMap f := by
  intro l
  induction l with
  | nil => intro init; simp
  | cons a t ih =>
    intro init
    simp only [List.foldl_cons, List.flatMap_cons, ih, List.append_assoc]

/-- A forEach loop whose body appends one event per item appends the mapped
list. -/
theorem foldl_append_one {α β : Type} (f : α → β) :
    ∀ (l : List α) (init : List β),
      l.foldl (fun acc x => acc ++ [f x]) init = init ++ l.map f := by
  intro l
  induction l with
  | nil => intro init; simp
  | cons a t ih =>
    intro init
    simp only [List.foldl_cons, List.map_cons, ih, List.append_assoc,
      List.singleton_append]

/-- Flat-mapping singleton blocks is mapping. -/
theorem flatMap_one {α β : Type} (f : α → β) (l : List α) :
    l.flatMap (fun x => [f x]) = l.map f := by
  induction l with
  | nil => simp
  | cons a t ih => simp [ih]

theorem applyFilters_eq (qb : List QEvent) (o : Option (List (String × Value))) :
    applyFilters qb o = qb ++ filtersTrace o := by
  cases o with
  | none => simp [applyFilters, filtersTrace]
  | some fs => simp [applyFilters, filtersTrace, foldl_append_one]

theorem applyOrderBy_eq (qb : List QEvent) (o : Option (List OrderByOptions)) :
    applyOrderBy qb o = qb ++ orderByTrace o := by
  cases o with
  | none => simp [applyOrderBy, orderByTrace]
  | some os =>
    cases os with
    | nil => simp [applyOrderBy, orderByTrace]
    | cons a t => simp [applyOrderBy, orderByTrace, foldl_append_one]

theorem applySelectFields_eq (qb : List QEvent) (o : Option (List String))
    (rels : Option (List String)) :
    applySelectFields qb o rels = qb ++ selectFieldsTrace o rels := by
  cases o with
  | none => simp [applySelectFields, selectFieldsTrace]
  | some fs =>
    cases fs with
    | nil => simp [applySelectFields, selectFieldsTrace]
    | cons a t =>
      simp [applySelectFields, selectFieldsTrace, foldl_append_flat,
        foldl_append_one, List.append_assoc, flatMap_one]

theorem applyPagination_eq (qb : List QEvent) (o : Option PaginationOptions) :
    applyPagination qb o = qb ++ paginationTrace o := by
  cases o with
  | none => simp [applyPagination, paginationTrace]
  | some p =>
    cases h : p.limit with
    | none => simp [applyPagination, paginationTrace, h]
    | some n =>
      cases n with
      | zero => simp [applyPagination, paginationTrace, h]
      | succ m => simp [applyPagination, paginationTrace, h]

theorem applySearch_eq (qb : List QEvent) (o : Option SearchOptions) :
    applySearch qb o = qb ++ searchTrace o := by
  cases o with
  | none => simp [applySearch, searchTrace]
  | some s =>
    cases hv : s.value with
    | none => simp [applySearch, searchTrace, hv]
    | some v =>
      by_cases hv0 : v = ""
      · simp [applySearch, searchTrace, hv, hv0]
      · cases hf : s.searchFields with
        | none => simp [applySearch, searchTrace, hv, hv0, hf]
        | some fs =>
          cases fs with
          | nil => simp [applySearch, searchTrace, hv, hv0, hf]
          | cons a t => simp [applySearch, searchTrace, hv, hv0, hf, foldl_append_one]

theorem applyDateFilter_eq (qb : List QEvent) (o : Option DateFilterOptions) :
    applyDateFilter qb o = qb ++ dateFilterTrace o := by
  cases o with
  | none => simp [applyDateFilter, dateFilterTrace]
  | some d =>
    by_cases h1 : d.field = ""
    · simp [applyDateFilter, dateFilterTrace, h1]
    · cases h2 : d.fromVal with
      | none => simp [applyDateFilter, dateFilterTrace, h1, h2]
      | some f =>
        by_cases h3 : f = ""
        · simp [applyDateFilter, dateFilterTrace, h1, h2, h3]
        · cases h4 : d.toVal with
          | none => simp [applyDateFilter, dateFilterTrace, h1, h2, h3, h4]
          | some t =>
            by_cases h5 : t = ""
            · simp [applyDateFilter, dateFilterTrace, h1, h2, h3, h4, h5]
            · simp [applyDateFilter, dateFilterTrace, h1, h2, h3, h4, h5]

theorem applyIncludeDeleted_eq (qb : List QEvent) (o : Option Bool) :
    applyIncludeDeleted qb o = qb ++ includeDeletedTrace o := by
  by_cases h : o = some true <;> simp [applyIncludeDeleted, includeDeletedTrace, h]

theorem applyIsNull_eq (qb : List QEvent) (o : Option NullableFilterOptions) :
    applyIsNull qb o = qb ++ isNullTrace o := by
  cases o with
  | none => simp [applyIsNull, isNullTrace]
  | some n =>
    by_cases h : n.field = "" <;> simp [applyIsNull, isNullTrace, h]

theorem applyGroupBy_eq (qb : List QEvent) (o : Option GroupByFilterOptions) :
    applyGroupBy qb o = qb ++ groupByTrace o := by
  cases o with
  | none => simp [applyGroupBy, groupByTrace]
  | some g =>
    by_cases h : g.field = ""
    · simp [applyGroupBy, groupByTrace, h]
    · cases hh : g.having with
      | none => simp [applyGroupBy, groupByTrace, h, hh]
      | some hv => simp [applyGroupBy, groupByTrace, h, hh]

end QueryBuilderService

namespace MixinsCrudService

open QueryBuilderService

/-- findAllEntities (mixins-crud-service.ts), query-construction part: create a
query builder on the root alias entity, left-join every declared relation, then
chain the nine apply methods of QueryBuilderService in the written order over
the optional filterOptions, and finally call getMany on the resulting handle.
The optional chaining filterOptions?.clause is Option.bind. -/
def findAllEntities (relations : List String) (opts : Option FilterOptions) :
    List QEvent :=
  let qb0 :=
    relations.foldl
      (fun acc rel => acc ++ [QEvent.leftJoinAndSelect ("entity." ++ rel) rel]) []
  (applyGroupBy
    (applyIsNull
      (applyIncludeDeleted
        (applyDateFilter
          (applySearch
            (applyPagination
              (applySelectFields
                (applyOrderBy
                  (applyFilters qb0 (opts.bind FilterOptions.filters))
                  (opts.bind FilterOptions.orderBy))
                (opts.bind FilterOptions.selectFields) (some relations))
              (opts.bind FilterOptions.pagination))
            (opts.bind FilterOptions.search))
          (opts.bind FilterOptions.date))
        (opts.bind FilterOptions.includeDeleted))
      (opts.bind FilterOptions.isNull))
    (opts.bind FilterOptions.groupBy)) ++ [QEvent.getMany]

end MixinsCrudService

/-- C6: for every Filter Specification, findAllEntities applies its clauses
onto the query handle in exactly the fixed order filters, orderBy,
selectFields, pagination, search, dateFilter, includeDeleted, isNull, groupBy
(after the eager relation joins), and then executes the mutated handle: the
call trace decomposes into the per-clause contributions in that order, ending
with getMany. -/
theorem findAllEntities_fixed_order (relations : List String)
    (opts : Option FilterOptions) :
    MixinsCrudService.findAllEntities relations opts =
      relations.map (fun rel => QEvent.leftJoinAndSelect ("entity." ++ rel) rel)
        ++ QueryBuilderService.filtersTrace (opts.bind FilterOptions.filters)
        ++ QueryBuilderService.orderByTrace (opts.bind FilterOptions.orderBy)
        ++ QueryBuilderService.selectFieldsTrace (opts.bind FilterOptions.selectFields)
            (some relations)
        ++ QueryBuilderService.paginationTrace (opts.bind FilterOptions.pagination)
        ++ QueryBuilderService.searchTrace (opts.bind FilterOptions.search)
        ++ QueryBuilderService.dateFilterTrace (opts.bind FilterOptions.date)
        ++ QueryBuilderService.includeDeletedTrace (opts.bind FilterOptions.includeDeleted)
        ++ QueryBuilderService.isNullTrace (opts.bind FilterOptions.isNull)
        ++ QueryBuilderService.groupByTrace (opts.bind FilterOptions.groupBy)
        ++ [QEvent.getMany] := by
  simp only [MixinsCrudService.findAllEntities,
    QueryBuilderService.applyFilters_eq, QueryBuilderService.applyOrderBy_eq,
    QueryBuilderService.applySelectFields_eq, QueryBuilderService.applyPagination_eq,
    QueryBuilderService.applySearch_eq, QueryBuilderService.applyDateFilter_eq,
    QueryBuilderService.applyIncludeDeleted_eq, QueryBuilderService.applyIsNull_eq,
    QueryBuilderService.applyGroupBy_eq,
    QueryBuilderService.foldl_append_one, List.nil_append, List.append_assoc]

/-- Modelled from the spec: the predicate field name the applyFilters rule of
spec section 4.2 prescribes — namespaced to the root alias unless the key
already contains a dot (relation-qualified), in which case it is used as
given. -/
def specFilterFieldName (k : String) : String :=
  if hasDot k then k else "entity." ++ k

/-- C3 counterexample: for the relation-qualified key author.name, applyFilters
emits the condition entity.author.name = :author.name, prefixing the root alias
even though the key already contains a dot, while the claim prescribes the
dotted key be used as given. -/
theorem applyFilters_prefixes_dotted_key :
    QueryBuilderService.applyFilters []
        (some [("author.name", Value.str "x")]) =
      [QEvent.andWhere "entity.author.name = :author.name"
        [("author.name", Value.str "x")]]
    ∧ "entity.author.name = :author.name" ≠
        specFilterFieldName "author.name" ++ " = :author.name" := by
  constructor
  · rfl
  · decide

/-- C3 (amended): for every filters mapping, each key is turned into one
equality predicate with its single bound parameter, all such predicates are
ANDed onto the query in key order, and the field name is always namespaced to
the root alias, even when the key already contains a dot. -/
theorem applyFilters_equality_predicates (qb : List QEvent)
    (fs : List (String × Value)) :
    QueryBuilderService.applyFilters qb (some fs) =
      qb ++ fs.map (fun kv =>
        QEvent.andWhere ("entity." ++ kv.1 ++ " = :" ++ kv.1) [kv]) :=
  QueryBuilderService.applyFilters_eq qb (some fs)

/-! ## Error taxonomy (exceptions thrown by the service and controller) -/

/-- One field-level violation produced by the validation collaborator:
the property name and its constraints, each a constraint name with its
description. -/
structure ValidationError where
  property : String
  constraints : List (String × String)
deriving DecidableEq

/-- The HTTP error payload of an HttpException: the error label, the message
body and the HTTP status code. -/
structure HttpErrorBody where
  error : String
  message : List (String × List (String × String))
  status : Nat
deriving DecidableEq

/-- DTOValidationException (exceptions/dto-validation.exception.ts): a 400
BAD_REQUEST HttpException whose message maps every validation error to its
(property, constraints) pair. -/
def DTOValidationException (errors : List ValidationError) : HttpErrorBody :=
  { error := "DTO Validation Error",
    message := errors.map (fun e => (e.property, e.constraints)),
    status := 400 }

/-- The exceptions the embedded code can throw: NotFoundException,
DTOException (missing DTO binding), DTOValidationException (carrying its HTTP
body) and InternalServerErrorException. -/
inductive Exc where
  | notFound (msg : String)
  | dtoException (msg : String)
  | dtoValidation (body : HttpErrorBody)
  | internalServer (msg : String)
deriving DecidableEq

/-! ## Record store model -/

/-- A persisted record: primary identifier, data fields, and the soft-deletion
timestamp column (none while the record is live). -/
structure Rec where
  id : Nat
  fields : Payload
  deletedAt : Option Nat
deriving DecidableEq

/-- The relational store's table for the entity, in insertion order. -/
abbrev Repo := List Rec

namespace MixinsCrudService

/-- The first record matching the identifier under the store's default
scoping, which excludes soft-deleted rows (spec section 4.2: unless withDeleted
is requested, the store's default scoping excludes soft-deleted records). -/
def findRec (repo : Repo) (id : Nat) : Option Rec :=
  repo.find? (fun r => r.id == id && r.deletedAt.isNone)

/-- The NotFoundException message built by the service. -/
def notFoundMsg (entityName : String) (id : Nat) : String :=
  "Entity " ++ entityName ++ " with ID " ++ toString id ++ " not found"

/-- findEntity (mixins-crud-service.ts): repository.findOne by id with the
relations eagerly loaded; throws NotFoundException when no record is visible
under default scoping. -/
def findEntity (entityName : String) (repo : Repo) (id : Nat) : Except Exc Rec :=
  match findRec repo id with
  | some r => Except.ok r
  | none => Except.error (Exc.notFound (notFoundMsg entityName id))

/-- createEntity (mixins-crud-service.ts): repository.create then save; the
store persists a new live row with a generated identifier and returns it. -/
def createEntity (repo : Repo) (newId : Nat) (p : Payload) : Rec × Repo :=
  (⟨newId, p, none⟩, repo ++ [⟨newId, p, none⟩])

/-- deleteEntity (mixins-crud-service.ts): findEntity first (NotFoundException
propagates), then repository.delete removes the row with that identifier. -/
def deleteEntity (entityName : String) (repo : Repo) (id : Nat) :
    Except Exc Repo :=
  match findEntity entityName repo id with
  | Except.error e => Except.error e
  | Except.ok _ => Except.ok (repo.filter (fun r => r.id != id))

/-- softDeleteEntity (mixins-crud-service.ts): findEntity first
(NotFoundException propagates), then repository.softDelete stamps the
deletion timestamp on the row. -/
def softDeleteEntity (entityName : String) (repo : Repo) (id : Nat)
    (now : Nat) : Except Exc Repo :=
  match findEntity entityName repo id with
  | Except.error e => Except.error e
  | Except.ok _ =>
    Except.ok (repo.map (fun r => if r.id == id then { r with deletedAt := some now } else r))

/-- restoreEntity (mixins-crud-service.ts): findEntity first — note that
findEntity searches under default scoping, which excludes soft-deleted rows —
then repository.restore clears the deletion timestamp. -/
def restoreEntity (entityName : String) (repo : Repo) (id : Nat) :
    Except Exc Repo :=
  match findEntity entityName repo id with
  | Except.error e => Except.error e
  | Except.ok _ =>
    Except.ok (repo.map (fun r => if r.id == id then { r with deletedAt := none } else r))

/-- mergeFields: repository.merge semantics — shallow field overwrite, payload
fields win, fields absent from the payload are retained. -/
def mergeFields (base p : Payload) : Payload :=
  base.map (fun kv => (kv.1, (assoc p kv.1).getD kv.2))
    ++ p.filter (fun kv => (assoc base kv.1).isNone)

/-- updateEntity (mixins-crud-service.ts): findEntity first (NotFoundException
propagates and nothing is persisted), then repository.merge of the payload
onto the found record, then repository.save persists the merged record and the
merged record is returned. -/
def updateEntity (entityName : String) (repo : Repo) (id : Nat) (p : Payload) :
    Except Exc (Rec × Repo) :=
  match findEntity entityName repo id with
  | Except.error e => Except.error e
  | Except.ok r =>
    let merged : Rec := { r with fields := mergeFields r.fields p }
    Except.ok (merged, repo.map (fun x => if x.id == id then merged else x))

/-- Modelled from the spec: executing the composed query against the store
(getMany), interpreted only for its soft-delete visibility — spec section 4.2:
when withDeleted was applied soft-deleted rows are included, otherwise the
store's default scoping excludes them.  The claims exercising this executor
set no other clause of the Filter Specification. -/
def runQuery (trace : List QEvent) (repo : Repo) : List Rec :=
  if trace.contains QEvent.withDeleted then repo
  else repo.filter (fun r => r.deletedAt.isNone)

end MixinsCrudService

/-- A FilterOptions value whose only set clause is includeDeleted = true. -/
def onlyIncludeDeleted : FilterOptions :=
  { emptyFilterOptions with includeDeleted := some true }

/-- C2: evaluation of the soft-delete / restore cycle on the one-record store.
The first two legs of the claim hold — after softDeleteEntity the default
findAllEntities excludes the record and findAllEntities with includeDeleted
includes it — but the third leg fails: restoreEntity first calls findEntity,
whose default scoping excludes soft-deleted rows, so restoring the
soft-deleted record throws NotFoundException instead of clearing the deletion
timestamp, and a subsequent default findAllEntities can never include the
record again. -/
theorem softDelete_findAll_restore_eval :
    MixinsCrudService.softDeleteEntity "User" [⟨1, [], none⟩] 1 5 =
      Except.ok [⟨1, [], some 5⟩]
    ∧ MixinsCrudService.runQuery (MixinsCrudService.findAllEntities [] none)
        [⟨1, [], some 5⟩] = []
    ∧ MixinsCrudService.runQuery
        (MixinsCrudService.findAllEntities [] (some onlyIncludeDeleted))
        [⟨1, [], some 5⟩] = [⟨1, [], some 5⟩]
    ∧ MixinsCrudService.restoreEntity "User" [⟨1, [], some 5⟩] 1 =
        Except.error (Exc.notFound "Entity User with ID 1 not found") := by
  refine ⟨rfl, rfl, rfl, rfl⟩

/-! ### Association-lookup lemmas for the merge law -/

theorem assoc_append (l1 l2 : Payload) (k : String) :
    assoc (l1 ++ l2) k = ((assoc l1 k).map some).getD (assoc l2 k) := by
  induction l1 with
  | nil => simp [assoc]
  | cons kv t ih =>
    obtain ⟨k', v⟩ := kv
    by_cases h : k' = k <;> simp [assoc, h, ih]

theorem assoc_map_merge (base p : Payload) (k : String) :
    assoc (base.map (fun kv => (kv.1, (assoc p kv.1).getD kv.2))) k =
      (assoc base k).map (fun v => (assoc p k).getD v) := by
  induction base with
  | nil => simp [assoc]
  | cons kv t ih =>
    obtain ⟨k', v⟩ := kv
    by_cases h : k' = k
    · subst h; simp [assoc]
    · simp [assoc, h, ih]

theorem assoc_filter_keep (p : Payload) (pred : String → Bool) (k : String)
    (h : pred k = true) :
    assoc (p.filter (fun kv => pred kv.1)) k = assoc p k := by
  induction p with
  | nil => simp
  | cons kv t ih =>
    obtain ⟨k', v⟩ := kv
    by_cases hk : k' = k
    · subst hk; simp [List.filter_cons, h, assoc]
    · cases hp : pred k' <;> simp [List.filter_cons, hp, assoc, hk, ih]

theorem assoc_filter_none (p : Payload) (pred : String × Value → Bool)
    (k : String) (h : assoc p k = none) :
    assoc (p.filter pred) k = none := by
  induction p with
  | nil => simpa using h
  | cons kv t ih =>
    obtain ⟨k', v⟩ := kv
    by_cases hk : k' = k
    · subst hk; simp [assoc] at h
    · simp only [assoc, hk, if_neg hk] at h
      cases hp : pred (k', v) <;>
        simp [List.filter_cons, hp, assoc, hk, ih h]

theorem mergeFields_present (base p : Payload) (k : String) (v : Value)
    (h : assoc p k = some v) :
    assoc (MixinsCrudService.mergeFields base p) k = some v := by
  unfold MixinsCrudService.mergeFields
  rw [assoc_append, assoc_map_merge]
  cases hb : assoc base k with
  | some w => simp [h]
  | none =>
    have hkeep : ((fun s => (assoc base s).isNone) k) = true := by simp [hb]
    have hfk := assoc_filter_keep p (fun s => (assoc base s).isNone) k hkeep
    simp only [Option.map_eq_map] at hfk ⊢
    simp [hfk, h]

theorem mergeFields_absent (base p : Payload) (k : String)
    (h : assoc p k = none) :
    assoc (MixinsCrudService.mergeFields base p) k = assoc base k := by
  unfold MixinsCrudService.mergeFields
  rw [assoc_append, assoc_map_merge]
  cases hb : assoc base k with
  | some w => simp [h]
  | none =>
    have hfn := assoc_filter_none p
      (fun kv => (assoc base kv.1).isNone) k h
    simp [hfn]

/-- C7: updateEntity fails with NotFound when no record with that id is
visible (and, the result being an error, nothing is persisted), and otherwise
returns the persisted merged record in which every field present in the
payload takes the payload's value and every field absent from the payload
retains its prior value. -/
theorem updateEntity_merge_law (entityName : String) (repo : Repo) (id : Nat)
    (p : Payload) :
    (MixinsCrudService.findRec repo id = none →
      MixinsCrudService.updateEntity entityName repo id p =
        Except.error (Exc.notFound (MixinsCrudService.notFoundMsg entityName id)))
    ∧ ∀ r, MixinsCrudService.findRec repo id = some r →
        MixinsCrudService.updateEntity entityName repo id p =
          Except.ok ({ r with fields := MixinsCrudService.mergeFields r.fields p },
            repo.map (fun x =>
              if x.id == id
              then { r with fields := MixinsCrudService.mergeFields r.fields p }
              else x))
        ∧ (∀ k v, assoc p k = some v →
            assoc (MixinsCrudService.mergeFields r.fields p) k = some v)
        ∧ (∀ k, assoc p k = none →
            assoc (MixinsCrudService.mergeFields r.fields p) k = assoc r.fields k) := by
  constructor
  · intro h
    simp [MixinsCrudService.updateEntity, MixinsCrudService.findEntity, h]
  · intro r h
    refine ⟨?_, fun k v hv => mergeFields_present r.fields p k v hv,
      fun k hk => mergeFields_absent r.fields p k hk⟩
    simp [MixinsCrudService.updateEntity, MixinsCrudService.findEntity, h]

/-- Witness for C7: on the empty store the update fails with NotFound; on a
one-record store the payload fields b and c win and the untouched field a is
retained. -/
theorem updateEntity_merge_law_witness :
    (MixinsCrudService.updateEntity "User" [] 1
        [("b", Value.str "9"), ("c", Value.str "7")] =
      Except.error (Exc.notFound (MixinsCrudService.notFoundMsg "User" 1)))
    ∧ (MixinsCrudService.updateEntity "User"
          [⟨1, [("a", Value.str "1"), ("b", Value.str "2")], none⟩] 1
          [("b", Value.str "9"), ("c", Value.str "7")] =
        Except.ok
          (⟨1, MixinsCrudService.mergeFields
              [("a", Value.str "1"), ("b", Value.str "2")]
              [("b", Value.str "9"), ("c", Value.str "7")], none⟩,
           [⟨1, MixinsCrudService.mergeFields
              [("a", Value.str "1"), ("b", Value.str "2")]
              [("b", Value.str "9"), ("c", Value.str "7")], none⟩]))
    ∧ assoc (MixinsCrudService.mergeFields
        [("a", Value.str "1"), ("b", Value.str "2")]
        [("b", Value.str "9"), ("c", Value.str "7")]) "b" = some (Value.str "9")
    ∧ assoc (MixinsCrudService.mergeFields
        [("a", Value.str "1"), ("b", Value.str "2")]
        [("b", Value.str "9"), ("c", Value.str "7")]) "c" = some (Value.str "7")
    ∧ assoc (MixinsCrudService.mergeFields
        [("a", Value.str "1"), ("b", Value.str "2")]
        [("b", Value.str "9"), ("c", Value.str "7")]) "a" = some (Value.str "1") := by
  have h1 := updateEntity_merge_law "User" [] 1
    [("b", Value.str "9"), ("c", Value.str "7")]
  have h2 := updateEntity_merge_law "User"
    [⟨1, [("a", Value.str "1"), ("b", Value.str "2")], none⟩] 1
    [("b", Value.str "9"), ("c", Value.str "7")]
  have h2r := h2.2 ⟨1, [("a", Value.str "1"), ("b", Value.str "2")], none⟩ rfl
  exact ⟨h1.1 rfl, h2r.1, h2r.2.1 "b" (Value.str "9") rfl,
    h2r.2.1 "c" (Value.str "7") rfl, h2r.2.2 "a" rfl⟩

/-! ## Schema resolution and the transformation pipeline (controller layer) -/

/-- One declared validation constraint on a DTO field, standing for the
class-validator decorators a DTO class carries. -/
inductive Constraint where
  | minLength (n : Nat)
  | isStringC
deriving DecidableEq

/-- The constraint's registered name. -/
def Constraint.cname : Constraint → String
  | .minLength _ => "minLength"
  | .isStringC => "isString"

/-- The constraint's violation description for a field. -/
def Constraint.describe (field : String) : Constraint → String
  | .minLength n =>
    field ++ " must be longer than or equal to " ++ toString n ++ " characters"
  | .isStringC => field ++ " must be a string"

/-- Whether a value satisfies the constraint. -/
def Constraint.check : Constraint → Value → Bool
  | .minLength n, Value.str s => n ≤ s.length
  | .minLength _, _ => false
  | .isStringC, Value.str _ => true
  | .isStringC, _ => false

/-- One declared DTO property with its constraints. -/
structure FieldRule where
  name : String
  constraints : List Constraint
deriving DecidableEq

/-- A DTO class as a validation schema: its declared properties. -/
structure DtoSchema where
  fields : List FieldRule
deriving DecidableEq

/-- The Type value resolved for an operation: either a registered DTO class or
the JavaScript Object constructor that the resolution falls back to. -/
inductive DtoClass where
  | object
  | schema (s : DtoSchema)
deriving DecidableEq

/-- JavaScript truthiness of the resolved Type value: the Object constructor
and any class constructor are both objects, hence truthy. -/
def DtoClass.jsTruthy : DtoClass → Bool
  | .object => true
  | .schema _ => true

/-- Modelled from the spec: the validation run of the class-validator
collaborator under the whitelist and forbidNonWhitelisted flags (spec section
4.5) — every payload field not declared on the schema yields a whitelist
violation, every declared field present with a failing constraint yields a
field violation listing each failed constraint, and all violations are
collected into one list. -/
def runClassValidation (s : DtoSchema) (p : Payload) : List ValidationError :=
  let ruleErrs := s.fields.filterMap (fun r =>
    match assoc p r.name with
    | some v =>
      let bad := r.constraints.filter (fun c => !(c.check v))
      if bad.isEmpty then none
      else some ⟨r.name, bad.map (fun c => (c.cname, c.describe r.name))⟩
    | none => none)
  let wlErrs :=
    (p.filter (fun kv => (s.fields.find? (fun r => r.name == kv.1)).isNone)).map
      (fun kv =>
        (⟨kv.1, [("whitelistValidation", "property " ++ kv.1 ++ " should not exist")]⟩ :
          ValidationError))
  ruleErrs ++ wlErrs

/-- setValidationPipes (mixins-crud-controller.ts): a ValidationPipe with
transform, whitelist and forbidNonWhitelisted enabled and an exceptionFactory
throwing DTOValidationException over the collected errors.  The pipe's own
behavior is modelled from the spec taxonomy: a non-decorated native metatype —
the Object fallback — is not validated at all, while a DTO schema is validated
through the collaborator and any violation aborts with the aggregated 400
error. -/
def setValidationPipes (p : Payload) (dtoClass : DtoClass) : Except Exc Payload :=
  match dtoClass with
  | DtoClass.object => Except.ok p
  | DtoClass.schema s =>
    let errs := runClassValidation s p
    if errs.isEmpty then Except.ok p
    else Except.error (Exc.dtoValidation (DTOValidationException errs))

/-- The Reflect metadata visible to one controller class: the method-level and
class-level bindings registered by the CreateDto and UpdateDto decorators. -/
structure DtoRegistry where
  createMethodMeta : List (String × DtoSchema)
  createClassMeta : Option DtoSchema
  updateMethodMeta : List (String × DtoSchema)
  updateClassMeta : Option DtoSchema
deriving DecidableEq

namespace MixinsCrudController

/-- getCreateDto (mixins-crud-controller.ts): when a method name is given and
method-level metadata exists for it, that binding wins; otherwise the
class-level binding; otherwise the Object fallback. -/
def getCreateDto (reg : DtoRegistry) (methodName : Option String) : DtoClass :=
  match methodName with
  | some m =>
    match assoc reg.createMethodMeta m with
    | some d => DtoClass.schema d
    | none =>
      match reg.createClassMeta with
      | some d => DtoClass.schema d
      | none => DtoClass.object
  | none =>
    match reg.createClassMeta with
    | some d => DtoClass.schema d
    | none => DtoClass.object

/-- getUpdateDto (mixins-crud-controller.ts): same resolution over the
UpdateDto metadata. -/
def getUpdateDto (reg : DtoRegistry) (methodName : Option String) : DtoClass :=
  match methodName with
  | some m =>
    match assoc reg.updateMethodMeta m with
    | some d => DtoClass.schema d
    | none =>
      match reg.updateClassMeta with
      | some d => DtoClass.schema d
      | none => DtoClass.object
  | none =>
    match reg.updateClassMeta with
    | some d => DtoClass.schema d
    | none => DtoClass.object

/-- create (mixins-crud-controller.ts): resolve the DTO through
getCreateDto for the create method, throw DTOException when the resolved
value is falsy, else validate the payload and persist it through
createEntity.  The persisted entity is built from the original payload (the
pipe's transform result is discarded by the source). -/
def create (reg : DtoRegistry) (repo : Repo) (newId : Nat) (p : Payload) :
    Except Exc (Rec × Repo) :=
  let dto := getCreateDto reg (some "create")
  if dto.jsTruthy = false then
    Except.error (Exc.dtoException "No CreateDto found. Use @CreateDto() decorator.")
  else
    match setValidationPipes p dto with
    | Except.error e => Except.error e
    | Except.ok _ => Except.ok (MixinsCrudService.createEntity repo newId p)

/-- update (mixins-crud-controller.ts, PUT): the source resolves the
validation schema through getCreateDto with the method name update — the
CreateDto metadata — not through getUpdateDto, then validates and delegates to
updateEntity. -/
def update (reg : DtoRegistry) (entityName : String) (repo : Repo) (id : Nat)
    (p : Payload) : Except Exc (Rec × Repo) :=
  let dto := getCreateDto reg (some "update")
  if dto.jsTruthy = false then
    Except.error (Exc.dtoException "No UpdateDto found. Use @UpdateDto() decorator.")
  else
    match setValidationPipes p dto with
    | Except.error e => Except.error e
    | Except.ok _ => MixinsCrudService.updateEntity entityName repo id p

/-- partialUpdate (mixins-crud-controller.ts, PATCH): same body as update, the
schema again resolved through getCreateDto with the method name update. -/
def partialUpdate (reg : DtoRegistry) (entityName : String) (repo : Repo)
    (id : Nat) (p : Payload) : Except Exc (Rec × Repo) :=
  let dto := getCreateDto reg (some "update")
  if dto.jsTruthy = false then
    Except.error (Exc.dtoException
      "No UpdateDto found \x27usage of @UpdateDto() decorator is mandatory\x27")
  else
    match setValidationPipes p dto with
    | Except.error e => Except.error e
    | Except.ok _ => MixinsCrudService.updateEntity entityName repo id p

/-- JavaScript truthiness of this.filterOptions?.includeDeleted. -/
def includeDeletedTruthy (opts : Option FilterOptions) : Bool :=
  match opts with
  | none => false
  | some o => o.includeDeleted.getD false

/-- delete (mixins-crud-controller.ts): look the target up through
findEntity (whose NotFoundException propagates, the HttpException being
rethrown unchanged by the catch block), then soft-delete when
filterOptions?.includeDeleted is truthy and hard-delete otherwise. -/
def delete (entityName : String) (opts : Option FilterOptions) (repo : Repo)
    (id : Nat) (now : Nat) : Except Exc Repo :=
  match MixinsCrudService.findEntity entityName repo id with
  | Except.error e => Except.error e
  | Except.ok _ =>
    if includeDeletedTruthy opts then
      MixinsCrudService.softDeleteEntity entityName repo id now
    else
      MixinsCrudService.deleteEntity entityName repo id

end MixinsCrudController

/-- C1: evaluation of create on a controller with no create DTO binding at
either level.  getCreateDto falls back to the Object constructor, which is
truthy, so the missing-binding guard never fires and no DTOException is
thrown; the ValidationPipe does not validate the non-decorated Object
metatype; the unvalidated payload is persisted.  The operation therefore does
not fail fast and validation is silently skipped, contrary to the claim and to
the method's own documentation. -/
theorem create_without_binding_silently_persists :
    MixinsCrudController.create ⟨[], none, [], none⟩ [] 1 [("hack", Value.str "x")] =
      Except.ok (⟨1, [("hack", Value.str "x")], none⟩,
        [⟨1, [("hack", Value.str "x")], none⟩])
    ∧ MixinsCrudController.getCreateDto ⟨[], none, [], none⟩ (some "create") =
        DtoClass.object
    ∧ DtoClass.jsTruthy DtoClass.object = true := by
  refine ⟨rfl, rfl, rfl⟩

/-- C5: evaluation of update on a controller whose class-level CreateDto
declares only the field a and whose class-level UpdateDto declares only the
field b.  The payload b, valid for the update binding, is rejected with a
whitelist violation because the source resolves the schema through
getCreateDto — the create binding — while getUpdateDto would have resolved the
update binding, which accepts the same payload. -/
theorem update_validates_against_create_binding :
    MixinsCrudController.update
        ⟨[], some ⟨[⟨"a", []⟩]⟩, [], some ⟨[⟨"b", []⟩]⟩⟩ "User"
        [⟨1, [("a", Value.str "old")], none⟩] 1 [("b", Value.str "v")] =
      Except.error (Exc.dtoValidation (DTOValidationException
        [⟨"b", [("whitelistValidation", "property b should not exist")]⟩]))
    ∧ MixinsCrudController.getUpdateDto
        ⟨[], some ⟨[⟨"a", []⟩]⟩, [], some ⟨[⟨"b", []⟩]⟩⟩ (some "update") =
        DtoClass.schema ⟨[⟨"b", []⟩]⟩
    ∧ setValidationPipes [("b", Value.str "v")] (DtoClass.schema ⟨[⟨"b", []⟩]⟩) =
        Except.ok [("b", Value.str "v")] := by
  refine ⟨rfl, rfl, rfl⟩

/-- C8: for every payload validated against a bound DTO schema, the presence
of any field not declared on the schema makes validation fail, and the failure
is the single 400 DTOValidationException aggregating every field-level
violation as (property, constraints) pairs. -/
theorem whitelist_rejects_undeclared (s : DtoSchema) (p : Payload) (k : String)
    (v : Value) (hmem : (k, v) ∈ p) (hund : ∀ r ∈ s.fields, r.name ≠ k) :
    setValidationPipes p (DtoClass.schema s) =
      Except.error (Exc.dtoValidation (DTOValidationException (runClassValidation s p)))
    ∧ (DTOValidationException (runClassValidation s p)).status = 400
    ∧ (DTOValidationException (runClassValidation s p)).message =
        (runClassValidation s p).map (fun e => (e.property, e.constraints))
    ∧ runClassValidation s p ≠ [] := by
  have hfind : s.fields.find? (fun r => r.name == k) = none := by
    rw [List.find?_eq_none]
    intro r hr
    simpa using hund r hr
  have hmemf : (k, v) ∈ p.filter
      (fun kv => (s.fields.find? (fun r => r.name == kv.1)).isNone) := by
    refine List.mem_filter.mpr ⟨hmem, ?_⟩
    simp [hfind]
  have hwl : (⟨k, [("whitelistValidation", "property " ++ k ++ " should not exist")]⟩ :
      ValidationError) ∈ runClassValidation s p := by
    unfold runClassValidation
    refine List.mem_append.mpr (Or.inr ?_)
    exact List.mem_map_of_mem _ hmemf
  have hne : runClassValidation s p ≠ [] := by
    intro h0
    rw [h0] at hwl
    exact List.not_mem_nil _ hwl
  refine ⟨?_, rfl, rfl, hne⟩
  cases hcase : runClassValidation s p with
  | nil => exact absurd hcase hne
  | cons a t => simp [setValidationPipes, hcase]

/-- Witness for C8: a schema declaring only username (min length 3) rejects
the payload containing the undeclared field hack even though username itself
is valid. -/
theorem whitelist_rejects_undeclared_witness :
    (("hack", Value.str "1") ∈
        [("username", Value.str "alice"), ("hack", Value.str "1")]
      ∧ ∀ r ∈ (⟨[⟨"username", [Constraint.minLength 3]⟩]⟩ : DtoSchema).fields,
          r.name ≠ "hack")
    ∧ setValidationPipes
        [("username", Value.str "alice"), ("hack", Value.str "1")]
        (DtoClass.schema ⟨[⟨"username", [Constraint.minLength 3]⟩]⟩) =
      Except.error (Exc.dtoValidation (DTOValidationException
        (runClassValidation ⟨[⟨"username", [Constraint.minLength 3]⟩]⟩
          [("username", Value.str "alice"), ("hack", Value.str "1")])))
    ∧ runClassValidation ⟨[⟨"username", [Constraint.minLength 3]⟩]⟩
        [("username", Value.str "alice"), ("hack", Value.str "1")] ≠ [] := by
  refine ⟨⟨by decide, by decide⟩, ?_, ?_⟩
  · exact (whitelist_rejects_undeclared
      ⟨[⟨"username", [Constraint.minLength 3]⟩]⟩
      [("username", Value.str "alice"), ("hack", Value.str "1")]
      "hack" (Value.str "1") (by decide) (by decide)).1
  · exact (whitelist_rejects_undeclared
      ⟨[⟨"username", [Constraint.minLength 3]⟩]⟩
      [("username", Value.str "alice"), ("hack", Value.str "1")]
      "hack" (Value.str "1") (by decide) (by decide)).2.2.2

/-- C10: for every delete request, a target invisible under default scoping
yields NotFound whatever the filterOptions say, and an existing live target is
soft-deleted when filterOptions.includeDeleted is truthy and hard-deleted
otherwise. -/
theorem delete_soft_or_hard (entityName : String) (opts : Option FilterOptions)
    (repo : Repo) (id : Nat) (now : Nat) :
    (MixinsCrudService.findRec repo id = none →
      MixinsCrudController.delete entityName opts repo id now =
        Except.error (Exc.notFound (MixinsCrudService.notFoundMsg entityName id)))
    ∧ (∀ r, MixinsCrudService.findRec repo id = some r →
        MixinsCrudController.delete entityName opts repo id now =
          Except.ok (if MixinsCrudController.includeDeletedTruthy opts
            then repo.map (fun x =>
              if x.id == id then { x with deletedAt := some now } else x)
            else repo.filter (fun x => x.id != id))) := by
  constructor
  · intro h
    simp [MixinsCrudController.delete, MixinsCrudService.findEntity, h]
  · intro r h
    by_cases hq : MixinsCrudController.includeDeletedTruthy opts = true
    · simp [MixinsCrudController.delete, MixinsCrudService.findEntity,
        MixinsCrudService.softDeleteEntity, h, hq]
    · simp [MixinsCrudController.delete, MixinsCrudService.findEntity,
        MixinsCrudService.deleteEntity, h, hq]

/-- Witness for C10: on the empty store the delete fails with NotFound; on a
one-record store the record is soft-deleted when includeDeleted is set and
removed otherwise. -/
theorem delete_soft_or_hard_witness :
    MixinsCrudController.delete "User" none [] 1 7 =
      Except.error (Exc.notFound (MixinsCrudService.notFoundMsg "User" 1))
    ∧ MixinsCrudController.delete "User" (some onlyIncludeDeleted)
        [⟨1, [], none⟩] 1 7 = Except.ok [⟨1, [], some 7⟩]
    ∧ MixinsCrudController.delete "User" none [⟨1, [], none⟩] 1 7 =
        Except.ok [] := by
  refine ⟨(delete_soft_or_hard "User" none [] 1 7).1 rfl, ?_, ?_⟩
  · have h := (delete_soft_or_hard "User" (some onlyIncludeDeleted)
      [⟨1, [], none⟩] 1 7).2 ⟨1, [], none⟩ rfl
    simpa [MixinsCrudController.includeDeletedTruthy, onlyIncludeDeleted,
      emptyFilterOptions] using h
  · have h := (delete_soft_or_hard "User" none [⟨1, [], none⟩] 1 7).2
      ⟨1, [], none⟩ rfl
    simpa [MixinsCrudController.includeDeletedTruthy] using h

/-! ## FilterOptionsBuilder with an explicit object heap

The builder mutates one internal options object and build() returns
this.options — the reference, not a copy.  To state reference claims the
JavaScript heap is modelled explicitly: a list of options objects indexed by
address; a builder is identified with the address of its single internal
options object, and build() returns that address. -/

namespace FilterOptionsBuilder

/-- The options object the FilterOptionsBuilder constructor initializes:
every clause present but empty. -/
def defaultOptions : FilterOptions :=
  { filters := some [], orderBy := some [], selectFields := some [],
    pagination := some ⟨none, none⟩, search := some ⟨none, none⟩,
    date := some ⟨"", none, none⟩, includeDeleted := some false,
    isNull := some ⟨"", false⟩, groupBy := some ⟨"", none⟩ }

/-- The heap of options objects, indexed by address. -/
abbrev Heap := List FilterOptions

/-- new FilterOptionsBuilder(): allocate the defaulted options object and
return the new heap together with the builder's address. -/
def newBuilder (h : Heap) : Heap × Nat := (h ++ [defaultOptions], h.length)

/-- Dereference an options-object address. -/
def heapGet (h : Heap) (a : Nat) : Option FilterOptions := h.get? a

/-- Mutate in place the options object a builder's address points at. -/
def setOn (h : Heap) (a : Nat) (f : FilterOptions → FilterOptions) : Heap :=
  match h.get? a with
  | some o => h.set a (f o)
  | none => h

/-- setFilters: this.options.filters = filters. -/
def setFilters (h : Heap) (a : Nat) (fs : List (String × Value)) : Heap :=
  setOn h a (fun o => { o with filters := some fs })

/-- setOrderBy: this.options.orderBy = orderBy. -/
def setOrderBy (h : Heap) (a : Nat) (os : List OrderByOptions) : Heap :=
  setOn h a (fun o => { o with orderBy := some os })

/-- setSelectFields: this.options.selectFields = selectFields. -/
def setSelectFields (h : Heap) (a : Nat) (fs : List String) : Heap :=
  setOn h a (fun o => { o with selectFields := some fs })

/-- setPagination: this.options.pagination = (limit, offset). -/
def setPagination (h : Heap) (a : Nat) (limit offset : Nat) : Heap :=
  setOn h a (fun o => { o with pagination := some ⟨some limit, some offset⟩ })

/-- setSearch: this.options.search = (searchFields, value). -/
def setSearch (h : Heap) (a : Nat) (fs : List String) (v : String) : Heap :=
  setOn h a (fun o => { o with search := some ⟨some fs, some v⟩ })

/-- setDateRange: this.options.date = (field, from, to). -/
def setDateRange (h : Heap) (a : Nat) (field fromV toV : String) : Heap :=
  setOn h a (fun o => { o with date := some ⟨field, some fromV, some toV⟩ })

/-- setIncludeDeleted: this.options.includeDeleted = includeDeleted. -/
def setIncludeDeleted (h : Heap) (a : Nat) (b : Bool) : Heap :=
  setOn h a (fun o => { o with includeDeleted := some b })

/-- setIsNull: this.options.isNull = (field, isNull). -/
def setIsNull (h : Heap) (a : Nat) (field : String) (b : Bool) : Heap :=
  setOn h a (fun o => { o with isNull := some ⟨field, b⟩ })

/-- setGroupBy: this.options.groupBy = (field, having). -/
def setGroupBy (h : Heap) (a : Nat) (field : String)
    (having : Option GroupByHaving) : Heap :=
  setOn h a (fun o => { o with groupBy := some ⟨field, having⟩ })

/-- build(): return this.options — the reference itself, not a copy. -/
def build (a : Nat) : Nat := a

end FilterOptionsBuilder

/-- Reading the last cell of an extended heap. -/
theorem get?_concat {α : Type} (l : List α) (x : α) :
    (l ++ [x]).get? l.length = some x := by
  induction l with
  | nil => rfl
  | cons a t ih => simp only [List.cons_append, List.length_cons, List.get?_cons_succ]; exact ih

/-- Reading back an updated heap cell. -/
theorem get?_set_self {α : Type} (l : List α) (n : Nat) (x : α)
    (hn : n < l.length) : (l.set n x).get? n = some x := by
  induction l generalizing n with
  | nil => exact absurd hn (Nat.not_lt_zero n)
  | cons a t ih =>
    cases n with
    | zero => rfl
    | succ m => simpa using ih m (Nat.lt_of_succ_lt_succ hn)

/-- C9 counterexample: build a fresh builder, then mutate the builder; the
Filter Specification previously returned by build() — the object its reference
denotes — has changed, so build() is not an immutable snapshot. -/
theorem build_returns_live_reference :
    FilterOptionsBuilder.heapGet
        (FilterOptionsBuilder.setIncludeDeleted
          (FilterOptionsBuilder.newBuilder []).1
          (FilterOptionsBuilder.newBuilder []).2 true)
        (FilterOptionsBuilder.build (FilterOptionsBuilder.newBuilder []).2)
      ≠ FilterOptionsBuilder.heapGet (FilterOptionsBuilder.newBuilder []).1
          (FilterOptionsBuilder.build (FilterOptionsBuilder.newBuilder []).2) := by
  decide

/-- C9 (amended): the builder starts from the defaulted all-empty Filter
Specification — a fresh builder's build() dereferences to the constructor's
defaulted options — but build() returns the builder's single internal options
object by reference, so mutating the builder after build() is visible through
every previously returned build() result. -/
theorem build_aliases_builder (h : FilterOptionsBuilder.Heap) (a : Nat)
    (o : FilterOptions) (b : Bool)
    (ho : FilterOptionsBuilder.heapGet h a = some o) :
    FilterOptionsBuilder.heapGet (FilterOptionsBuilder.newBuilder h).1
        (FilterOptionsBuilder.build (FilterOptionsBuilder.newBuilder h).2) =
      some FilterOptionsBuilder.defaultOptions
    ∧ FilterOptionsBuilder.heapGet (FilterOptionsBuilder.setIncludeDeleted h a b)
        (FilterOptionsBuilder.build a) =
      some { o with includeDeleted := some b } := by
  constructor
  · exact get?_concat h FilterOptionsBuilder.defaultOptions
  · have hlt : a < h.length := by
      rcases List.get?_eq_some.mp ho with ⟨hl, _⟩
      exact hl
    simp only [FilterOptionsBuilder.setIncludeDeleted, FilterOptionsBuilder.setOn,
      FilterOptionsBuilder.heapGet, FilterOptionsBuilder.build] at ho ⊢
    rw [ho]
    exact get?_set_self h a _ hlt

/-- Witness for C9 (amended): on the one-cell heap holding the defaulted
options, a fresh builder dereferences to the defaults and a mutation through
the builder is visible through the previously returned reference. -/
theorem build_aliases_builder_witness :
    FilterOptionsBuilder.heapGet [FilterOptionsBuilder.defaultOptions] 0 =
      some FilterOptionsBuilder.defaultOptions
    ∧ (FilterOptionsBuilder.heapGet
          (FilterOptionsBuilder.newBuilder [FilterOptionsBuilder.defaultOptions]).1
          (FilterOptionsBuilder.build
            (FilterOptionsBuilder.newBuilder [FilterOptionsBuilder.defaultOptions]).2) =
        some FilterOptionsBuilder.defaultOptions
      ∧ FilterOptionsBuilder.heapGet
          (FilterOptionsBuilder.setIncludeDeleted
            [FilterOptionsBuilder.defaultOptions] 0 true)
          (FilterOptionsBuilder.build 0) =
        some { FilterOptionsBuilder.defaultOptions with includeDeleted := some true }) :=
  ⟨rfl, build_aliases_builder [FilterOptionsBuilder.defaultOptions] 0
    FilterOptionsBuilder.defaultOptions true rfl⟩

/-- C4: with two search fields a, b and value x, applySearch passes to the
second orWhere call the condition string OR entity.b LIKE :search, whose
leading literal OR keyword duplicates the OR connective orWhere itself
contributes, so the chain of predicates is not the well-formed OR-chain of
field LIKE %value% predicates the claim states (the rendered query would read
OR OR entity.b LIKE :search). -/
theorem applySearch_stray_or :
    QueryBuilderService.applySearch []
        (some { searchFields := some ["a", "b"], value := some "x" }) =
      [QEvent.orWhere " entity.a LIKE :search" [("search", Value.str "%x%")],
       QEvent.orWhere "OR entity.b LIKE :search" [("search", Value.str "%x%")]]
    ∧ "OR entity.b LIKE :search" = "OR " ++ "entity.b LIKE :search" := by
  constructor
  · rfl
  · rfl

end NestCrud
